import Mathlib

/-!
Verification of the training-loop driver abstracted from
src/exercise_files/3_Training_Neural_Networks.ipynb.

The notebook's authored logic is the manual training loop:

  for e in range(epochs):
      running_loss = 0
      for images, labels in trainloader:
          images = images.view(images.shape[0], -1)
          optimizer.zero_grad()
          output = model(images)
          loss = criterion(output, labels)
          loss.backward()
          optimizer.step()
          running_loss += loss.item()
      else:
          print(f"Training loss: {running_loss/len(trainloader)}")

The network, loss and optimizer are opaque capabilities of an external
framework; they are embedded here as structures of functions over exact
rationals.  Parameters and gradients are flat lists of rationals.  Each
batch step emits a trace of events so that ordering properties of the
loop body can be stated and proved.  Stateful mutation of the externally
owned parameter collection is embedded as explicit state passing, and a
failure inside a stage leaves the state as of the last completed step,
matching an exception unwinding past the loop while the framework
objects retain their state.
-/

namespace TrainingLoop

/-- The stage of the per-batch training pass in which a failure arose.
Modelled from the spec: the notebook has no explicit error handling (a
raised exception propagates out of the loop, identifying the failing
stage), and the specification requires errors to be tagged with the
stage (forward/loss/backward/step) that raised them. -/
inductive Stage where
  | forward
  | loss
  | backward
  | step
deriving DecidableEq

/-- Errors surfaced by the training loop.  Modelled from the spec: a
stage failure carries the failing stage and the framework's error value;
emptyEpoch is the division-by-zero on `running_loss/len(trainloader)`
when the loader yields no batches (Python raises ZeroDivisionError). -/
inductive TrainError (ε : Type) where
  | stage (s : Stage) (e : ε)
  | emptyEpoch
deriving DecidableEq

/-- The external network capability: `output = model(images)`.
Parameters are passed explicitly (the framework owns them; the loop
only reads them through forward).  Fallible, to model framework errors
such as shape mismatches. -/
structure Model (I : Type) (ε : Type) where
  forward : List ℚ → I → Except ε (List ℚ)

/-- The external loss capability: `loss = criterion(output, labels)`
gives the scalar loss value, and `loss.backward()` populates a gradient
contribution computed from the parameters, the forward output of the
same iteration and the labels. -/
structure Criterion (Lb : Type) (ε : Type) where
  evaluate : List ℚ → Lb → Except ε ℚ
  backward : List ℚ → List ℚ → Lb → Except ε (List ℚ)

/-- The external optimizer capability bound to the model's parameters:
`optimizer.zero_grad()` rewrites the gradient accumulator and
`optimizer.step()` rewrites the parameters from the accumulator. -/
structure Optimizer where
  zero_grad : List ℚ → List ℚ
  step : List ℚ → List ℚ → List ℚ

/-- Pointwise addition of equally shaped tensors; `loss.backward()`
accumulates (adds) its gradient contribution into the accumulator. -/
def zipAdd (xs ys : List ℚ) : List ℚ := List.zipWith (fun a b => a + b) xs ys

/-- Observable events of one training pass, recording the tensor values
each stage consumed and produced. -/
inductive Ev (I Lb : Type) where
  | zeroGrad
  | forwardEv (params : List ℚ) (input : I) (output : List ℚ)
  | lossEv (output : List ℚ) (labels : Lb) (value : ℚ)
  | backwardEv (output : List ℚ) (labels : Lb) (grads : List ℚ)
  | stepEv (params : List ℚ)
deriving DecidableEq

/-- Result of one epoch of the inner loop: parameter and gradient state,
the `running_loss` accumulator, the emitted trace, and the first error
encountered (none on success).  On an error the state is that of the
last completed batch. -/
structure LoopOut (I Lb ε : Type) where
  params : List ℚ
  grads : List ℚ
  running_loss : ℚ
  trace : List (Ev I Lb)
  err : Option (TrainError ε)
deriving DecidableEq

/-- Result of a whole `train` call: final state, the reported per-epoch
mean losses in traversal order, the full trace, and the first error. -/
structure TrainOut (I Lb ε : Type) where
  params : List ℚ
  grads : List ℚ
  means : List ℚ
  trace : List (Ev I Lb)
  err : Option (TrainError ε)
deriving DecidableEq

variable {I Lb ε : Type}

/-- One iteration of the inner loop body, in the notebook's order:
`optimizer.zero_grad(); output = model(images); loss = criterion(output,
labels); loss.backward(); optimizer.step()`.  Returns the new
parameters, the populated gradient accumulator, the scalar loss value
added to `running_loss`, and the event trace; or the first stage
failure, tagged with its stage. -/
def processBatch (model : Model I ε) (criterion : Criterion Lb ε) (optimizer : Optimizer)
    (p g : List ℚ) (b : I × Lb) :
    Except (TrainError ε) (List ℚ × List ℚ × ℚ × List (Ev I Lb)) :=
  let g0 := optimizer.zero_grad g
  match model.forward p b.1 with
  | Except.error e => Except.error (TrainError.stage Stage.forward e)
  | Except.ok output =>
    match criterion.evaluate output b.2 with
    | Except.error e => Except.error (TrainError.stage Stage.loss e)
    | Except.ok loss =>
      match criterion.backward p output b.2 with
      | Except.error e => Except.error (TrainError.stage Stage.backward e)
      | Except.ok dg =>
        let g1 := zipAdd g0 dg
        let p1 := optimizer.step p g1
        Except.ok (p1, g1, loss,
          [Ev.zeroGrad, Ev.forwardEv p b.1 output, Ev.lossEv output b.2 loss,
            Ev.backwardEv output b.2 g1, Ev.stepEv p1])

/-- The inner loop `for images, labels in trainloader`, threading the
externally owned parameter and gradient state and the `running_loss`
accumulator.  The first stage failure stops the epoch and is reported;
the state returned with it is that of the last completed batch. -/
def epochLoop (model : Model I ε) (criterion : Criterion Lb ε) (optimizer : Optimizer) :
    List (I × Lb) → List ℚ → List ℚ → ℚ → LoopOut I Lb ε
  | [], p, g, running_loss => ⟨p, g, running_loss, [], none⟩
  | b :: bs, p, g, running_loss =>
    match processBatch model criterion optimizer p g b with
    | Except.error e => ⟨p, g, running_loss, [], some e⟩
    | Except.ok (p1, g1, loss, ev) =>
      let r := epochLoop model criterion optimizer bs p1 g1 (running_loss + loss)
      ⟨r.params, r.grads, r.running_loss, ev ++ r.trace, r.err⟩

/-- One epoch: `running_loss = 0` then the inner loop over one full
traversal of the loader. -/
def runEpoch (model : Model I ε) (criterion : Criterion Lb ε) (optimizer : Optimizer)
    (trainloader : List (I × Lb)) (p g : List ℚ) : LoopOut I Lb ε :=
  epochLoop model criterion optimizer trainloader p g 0

/-- The epoch report `running_loss/len(trainloader)`.  Division by a
zero batch count is Python's ZeroDivisionError, surfaced as the fatal
emptyEpoch error. -/
def reportMean (running_loss : ℚ) (n : ℕ) : Except (TrainError ε) ℚ :=
  if n = 0 then Except.error TrainError.emptyEpoch
  else Except.ok (running_loss / (n : ℚ))

/-- The outer loop `for e in range(epochs)`, unrolled over the epoch
budget: each epoch runs one traversal and conses its reported mean.
An epoch failure aborts the remaining epochs. -/
def trainGo (model : Model I ε) (criterion : Criterion Lb ε) (optimizer : Optimizer)
    (trainloader : List (I × Lb)) : ℕ → List ℚ → List ℚ → TrainOut I Lb ε
  | 0, p, g => ⟨p, g, [], [], none⟩
  | n + 1, p, g =>
    let r := runEpoch model criterion optimizer trainloader p g
    match r.err with
    | some e => ⟨r.params, r.grads, [], r.trace, some e⟩
    | none =>
      match reportMean r.running_loss trainloader.length with
      | Except.error e => ⟨r.params, r.grads, [], r.trace, some e⟩
      | Except.ok m =>
        let t := trainGo model criterion optimizer trainloader n r.params r.grads
        ⟨t.params, t.grads, m :: t.means, r.trace ++ t.trace, t.err⟩

/-- The training loop driver
`train(model, criterion, optimizer, batch_source, epoch_count)`.
`epochs` is an integer as in Python; `range(epochs)` is empty when
`epochs <= 0`, which is `Int.toNat` sending non-positives to 0. -/
def train (model : Model I ε) (criterion : Criterion Lb ε) (optimizer : Optimizer)
    (trainloader : List (I × Lb)) (p g : List ℚ) (epochs : ℤ) : TrainOut I Lb ε :=
  trainGo model criterion optimizer trainloader epochs.toNat p g

/-- The trace judgment of a well-formed epoch segment: a concatenation
of per-batch blocks, each exactly the five events zero-grad, forward,
loss, backward, step in that order, where the loss and backward events
consume the very output the forward event of the same block produced,
the backward event sees the freshly zeroed-then-populated accumulator,
and the next block starts from the parameters the step event wrote. -/
inductive EpochTrace (model : Model I ε) (criterion : Criterion Lb ε) (optimizer : Optimizer) :
    List ℚ → List ℚ → List (Ev I Lb) → List ℚ → List ℚ → Prop where
  | nil (p g : List ℚ) : EpochTrace model criterion optimizer p g [] p g
  | batch (p g : List ℚ) (x : I) (y : Lb) (o : List ℚ) (v : ℚ) (dg : List ℚ)
      (tr : List (Ev I Lb)) (pEnd gEnd : List ℚ) :
      model.forward p x = Except.ok o →
      criterion.evaluate o y = Except.ok v →
      criterion.backward p o y = Except.ok dg →
      EpochTrace model criterion optimizer
        (optimizer.step p (zipAdd (optimizer.zero_grad g) dg))
        (zipAdd (optimizer.zero_grad g) dg) tr pEnd gEnd →
      EpochTrace model criterion optimizer p g
        (Ev.zeroGrad :: Ev.forwardEv p x o :: Ev.lossEv o y v ::
          Ev.backwardEv o y (zipAdd (optimizer.zero_grad g) dg) ::
          Ev.stepEv (optimizer.step p (zipAdd (optimizer.zero_grad g) dg)) :: tr)
        pEnd gEnd

/-- The scalar loss values recorded in a trace, one per loss event, in
order: the values `running_loss += loss.item()` adds up. -/
def lossVals : List (Ev I Lb) → List ℚ
  | [] => []
  | Ev.lossEv _ _ v :: tr => v :: lossVals tr
  | Ev.zeroGrad :: tr => lossVals tr
  | Ev.forwardEv _ _ _ :: tr => lossVals tr
  | Ev.backwardEv _ _ _ :: tr => lossVals tr
  | Ev.stepEv _ :: tr => lossVals tr

/-- The engine capabilities never fail: every forward pass, loss
evaluation and backward call succeeds (how the notebook actually runs
on well-shaped data). -/
def Total (model : Model I ε) (criterion : Criterion Lb ε) : Prop :=
  (∀ p x, ∃ o, model.forward p x = Except.ok o) ∧
  (∀ o y, ∃ v, criterion.evaluate o y = Except.ok v) ∧
  (∀ p o y, ∃ dg, criterion.backward p o y = Except.ok dg)

/-- Rectified linear activation `nn.ReLU`, pointwise on one entry. -/
def reluFun (q : ℚ) : ℚ := max q 0

/-- Dot product of two equally long vectors. -/
def dotList (xs ys : List ℚ) : ℚ := (List.zipWith (fun a b => a * b) xs ys).sum

/-- The affine map of `nn.Linear`: `W x + b`, one row of `W` per output
unit. -/
def linearFun (W : List (List ℚ)) (b : List ℚ) (x : List ℚ) : List ℚ :=
  zipAdd (W.map (fun row => dotList row x)) b

/-- `nn.LogSoftmax(dim=1)` on one example: each entry becomes
`x_i - log (sum_j exp x_j)`, with the framework's exp and log passed in
as opaque real-function capabilities. -/
def logSoftmaxFun (fexp flog : ℚ → ℚ) (x : List ℚ) : List ℚ :=
  x.map (fun xi => xi - flog ((x.map fexp).sum))

/-- The layer kinds of the notebook's `nn.Sequential` model.  A layer
value carries all state the layer owns; these three kinds own only
their parameters, no mutable buffers. -/
inductive Layer where
  | linear (W : List (List ℚ)) (b : List ℚ)
  | relu
  | logSoftmax (fexp flog : ℚ → ℚ)

/-- Applying a layer returns its output together with the layer's state
after the call, so that any hidden-state mutation by a forward pass
would be observable in the returned state. -/
def Layer.apply : Layer → List ℚ → List ℚ × Layer
  | Layer.linear W b, x => (linearFun W b x, Layer.linear W b)
  | Layer.relu, x => (x.map reluFun, Layer.relu)
  | Layer.logSoftmax fe fl, x => (logSoftmaxFun fe fl x, Layer.logSoftmax fe fl)

/-- The forward pass of `nn.Sequential`: feed the input through the
layers in order, returning the final output and the layer states after
the call. -/
def seqForward : List Layer → List ℚ → List ℚ × List Layer
  | [], x => (x, [])
  | L :: Ls, x =>
    let r := Layer.apply L x
    let r2 := seqForward Ls r.1
    (r2.1, r.2 :: r2.2)

/-- The notebook's classifier: `nn.Sequential(nn.Linear(784, 128),
nn.ReLU(), nn.Linear(128, 64), nn.ReLU(), nn.Linear(64, 10),
nn.LogSoftmax(dim=1))`, with the three weight matrices and bias vectors
as parameters. -/
def mnistModel (W1 : List (List ℚ)) (b1 : List ℚ) (W2 : List (List ℚ)) (b2 : List ℚ)
    (W3 : List (List ℚ)) (b3 : List ℚ) (fexp flog : ℚ → ℚ) : List Layer :=
  [Layer.linear W1 b1, Layer.relu, Layer.linear W2 b2, Layer.relu,
    Layer.linear W3 b3, Layer.logSoftmax fexp flog]

/-- A concrete engine used to evaluate the driver on closed inputs:
forward adds the input to the parameters, the loss is the sum of output
plus labels, backward returns that same vector as the gradient. -/
def wModel : Model (List ℚ) Unit := ⟨fun p x => Except.ok (zipAdd p x)⟩

/-- Concrete loss capability paired with wModel. -/
def wCriterion : Criterion (List ℚ) Unit :=
  ⟨fun o y => Except.ok ((zipAdd o y).sum), fun _ o y => Except.ok (zipAdd o y)⟩

/-- Concrete optimizer: zeroing rewrites the accumulator to zeros, a
step adds the gradient to the parameters. -/
def wOptimizer : Optimizer :=
  ⟨fun g => g.map (fun _ => (0 : ℚ)), fun p g => zipAdd p g⟩

/-- A model whose forward pass always fails, exercising the error
path. -/
def wBadModel : Model (List ℚ) Unit := ⟨fun _ _ => Except.error ()⟩

/-- A model whose forward pass fails exactly on the input `[9]`,
exercising a failure in mid-epoch after successful batches. -/
def wFlakyModel : Model (List ℚ) Unit :=
  ⟨fun p x => if x = [(9 : ℚ)] then Except.error () else Except.ok (zipAdd p x)⟩

lemma processBatch_ok {model : Model I ε} {criterion : Criterion Lb ε} {optimizer : Optimizer}
    {p g : List ℚ} {b : I × Lb} {p1 g1 : List ℚ} {v : ℚ} {ev : List (Ev I Lb)}
    (h : processBatch model criterion optimizer p g b = Except.ok (p1, g1, v, ev)) :
    ∃ o dg, model.forward p b.1 = Except.ok o ∧ criterion.evaluate o b.2 = Except.ok v ∧
      criterion.backward p o b.2 = Except.ok dg ∧
      g1 = zipAdd (optimizer.zero_grad g) dg ∧ p1 = optimizer.step p g1 ∧
      ev = [Ev.zeroGrad, Ev.forwardEv p b.1 o, Ev.lossEv o b.2 v,
        Ev.backwardEv o b.2 g1, Ev.stepEv p1] := by
  simp only [processBatch] at h
  split at h
  · exact absurd h (by simp)
  · rename_i o hf
    split at h
    · exact absurd h (by simp)
    · rename_i v0 he
      split at h
      · exact absurd h (by simp)
      · rename_i dg hd
        simp only [Except.ok.injEq, Prod.mk.injEq] at h
        obtain ⟨hp1, hg1, hv, hev⟩ := h
        subst hp1; subst hg1; subst hv; subst hev
        exact ⟨o, dg, hf, he, hd, rfl, rfl, rfl⟩

lemma epochLoop_ok (model : Model I ε) (criterion : Criterion Lb ε) (optimizer : Optimizer)
    (bs : List (I × Lb)) :
    ∀ (p g : List ℚ) (acc : ℚ),
      (epochLoop model criterion optimizer bs p g acc).err = none →
      EpochTrace model criterion optimizer p g
          (epochLoop model criterion optimizer bs p g acc).trace
          (epochLoop model criterion optimizer bs p g acc).params
          (epochLoop model criterion optimizer bs p g acc).grads ∧
        (epochLoop model criterion optimizer bs p g acc).running_loss =
          acc + (lossVals (epochLoop model criterion optimizer bs p g acc).trace).sum ∧
        (lossVals (epochLoop model criterion optimizer bs p g acc).trace).length = bs.length := by
  induction bs with
  | nil =>
    intro p g acc _
    exact ⟨EpochTrace.nil p g, by simp [epochLoop, lossVals], by simp [epochLoop, lossVals]⟩
  | cons b bs ih =>
    intro p g acc h
    cases hpb : processBatch model criterion optimizer p g b with
    | error e => simp [epochLoop, hpb] at h
    | ok out =>
      obtain ⟨p1, g1, v, ev⟩ := out
      simp only [epochLoop, hpb] at h ⊢
      obtain ⟨htr, hrl, hlen⟩ := ih p1 g1 (acc + v) h
      obtain ⟨o, dg, hf, he, hd, hg1, hp1, hev⟩ := processBatch_ok hpb
      subst hg1; subst hp1; subst hev
      refine ⟨?_, ?_, ?_⟩
      · exact EpochTrace.batch p g b.1 b.2 o v dg _ _ _ hf he hd htr
      · rw [hrl]; simp [lossVals]; ring
      · simp [lossVals, hlen]

lemma epochTrace_append {model : Model I ε} {criterion : Criterion Lb ε} {optimizer : Optimizer}
    {p g : List ℚ} {tr1 : List (Ev I Lb)} {p1 g1 : List ℚ} {tr2 : List (Ev I Lb)}
    {p2 g2 : List ℚ}
    (h1 : EpochTrace model criterion optimizer p g tr1 p1 g1)
    (h2 : EpochTrace model criterion optimizer p1 g1 tr2 p2 g2) :
    EpochTrace model criterion optimizer p g (tr1 ++ tr2) p2 g2 := by
  induction h1 with
  | nil => exact h2
  | batch p g x y o v dg tr pEnd gEnd hf he hd htr ih =>
    exact EpochTrace.batch p g x y o v dg (tr ++ tr2) p2 g2 hf he hd (ih h2)

lemma epochLoop_append (model : Model I ε) (criterion : Criterion Lb ε) (optimizer : Optimizer)
    (bs1 bs2 : List (I × Lb)) (p g p1 g1 : List ℚ) (acc acc1 : ℚ) (tr1 : List (Ev I Lb))
    (h : epochLoop model criterion optimizer bs1 p g acc = ⟨p1, g1, acc1, tr1, none⟩) :
    epochLoop model criterion optimizer (bs1 ++ bs2) p g acc =
      ⟨(epochLoop model criterion optimizer bs2 p1 g1 acc1).params,
        (epochLoop model criterion optimizer bs2 p1 g1 acc1).grads,
        (epochLoop model criterion optimizer bs2 p1 g1 acc1).running_loss,
        tr1 ++ (epochLoop model criterion optimizer bs2 p1 g1 acc1).trace,
        (epochLoop model criterion optimizer bs2 p1 g1 acc1).err⟩ := by
  induction bs1 generalizing p g acc tr1 with
  | nil =>
    simp only [epochLoop, LoopOut.mk.injEq] at h
    obtain ⟨h1, h2, h3, h4, -⟩ := h
    subst h1; subst h2; subst h3; subst h4
    simp
  | cons b bs ih =>
    cases hpb : processBatch model criterion optimizer p g b with
    | error e => simp [epochLoop, hpb] at h
    | ok out =>
      obtain ⟨pb, gb, v, ev⟩ := out
      simp only [epochLoop, hpb, LoopOut.mk.injEq] at h
      obtain ⟨h1, h2, h3, h4, h5⟩ := h
      have hr : epochLoop model criterion optimizer bs pb gb (acc + v) =
          ⟨p1, g1, acc1, (epochLoop model criterion optimizer bs pb gb (acc + v)).trace,
            none⟩ := by
        cases hx : epochLoop model criterion optimizer bs pb gb (acc + v)
        rw [hx] at h1 h2 h3 h5
        simp_all
      subst h4
      simp only [List.cons_append, epochLoop, hpb, List.append_eq]
      rw [ih pb gb (acc + v) _ hr]
      simp

lemma processBatch_total {model : Model I ε} {criterion : Criterion Lb ε}
    (hT : Total model criterion) (optimizer : Optimizer) (p g : List ℚ) (b : I × Lb) :
    ∃ p1 g1 v ev,
      processBatch model criterion optimizer p g b = Except.ok (p1, g1, v, ev) := by
  obtain ⟨hf, he, hd⟩ := hT
  obtain ⟨o, ho⟩ := hf p b.1
  obtain ⟨v, hv⟩ := he o b.2
  obtain ⟨dg, hdg⟩ := hd p o b.2
  refine ⟨optimizer.step p (zipAdd (optimizer.zero_grad g) dg),
    zipAdd (optimizer.zero_grad g) dg, v,
    [Ev.zeroGrad, Ev.forwardEv p b.1 o, Ev.lossEv o b.2 v,
      Ev.backwardEv o b.2 (zipAdd (optimizer.zero_grad g) dg),
      Ev.stepEv (optimizer.step p (zipAdd (optimizer.zero_grad g) dg))], ?_⟩
  simp [processBatch, ho, hv, hdg]

lemma epochLoop_total {model : Model I ε} {criterion : Criterion Lb ε}
    (hT : Total model criterion) (optimizer : Optimizer) (bs : List (I × Lb)) :
    ∀ (p g : List ℚ) (acc : ℚ),
      (epochLoop model criterion optimizer bs p g acc).err = none := by
  induction bs with
  | nil => intro p g acc; simp [epochLoop]
  | cons b bs ih =>
    intro p g acc
    obtain ⟨p1, g1, v, ev, hpb⟩ := processBatch_total hT optimizer p g b
    simp [epochLoop, hpb, ih]

lemma trainGo_ok {model : Model I ε} {criterion : Criterion Lb ε}
    (hT : Total model criterion) (optimizer : Optimizer) (trainloader : List (I × Lb))
    (hb : trainloader ≠ []) :
    ∀ (n : ℕ) (p g : List ℚ),
      (trainGo model criterion optimizer trainloader n p g).err = none ∧
      (trainGo model criterion optimizer trainloader n p g).means.length = n := by
  intro n
  induction n with
  | zero => intro p g; simp [trainGo]
  | succ n ih =>
    intro p g
    have hr : (runEpoch model criterion optimizer trainloader p g).err = none :=
      epochLoop_total hT optimizer trainloader p g 0
    have hlen : trainloader.length ≠ 0 := by simpa using hb
    have hm : reportMean (runEpoch model criterion optimizer trainloader p g).running_loss
        trainloader.length =
        (Except.ok ((runEpoch model criterion optimizer trainloader p g).running_loss /
          (trainloader.length : ℚ)) : Except (TrainError ε) ℚ) := by
      simp [reportMean, hlen]
    simp only [trainGo, hr, hm]
    simpa using ih (runEpoch model criterion optimizer trainloader p g).params
      (runEpoch model criterion optimizer trainloader p g).grads

lemma trainGo_trace (model : Model I ε) (criterion : Criterion Lb ε) (optimizer : Optimizer)
    (trainloader : List (I × Lb)) :
    ∀ (n : ℕ) (p g : List ℚ),
      (trainGo model criterion optimizer trainloader n p g).err = none →
      EpochTrace model criterion optimizer p g
        (trainGo model criterion optimizer trainloader n p g).trace
        (trainGo model criterion optimizer trainloader n p g).params
        (trainGo model criterion optimizer trainloader n p g).grads := by
  intro n
  induction n with
  | zero => intro p g _; exact EpochTrace.nil p g
  | succ n ih =>
    intro p g h
    cases hr : (runEpoch model criterion optimizer trainloader p g).err with
    | some e => simp [trainGo, hr] at h
    | none =>
      cases hm : (reportMean (runEpoch model criterion optimizer trainloader p g).running_loss
          trainloader.length : Except (TrainError ε) ℚ) with
      | error e => simp [trainGo, hr, hm] at h
      | ok m =>
        simp only [trainGo, hr, hm] at h ⊢
        have h1 := epochLoop_ok model criterion optimizer trainloader p g 0 hr
        have h2 := ih (runEpoch model criterion optimizer trainloader p g).params
          (runEpoch model criterion optimizer trainloader p g).grads h
        exact epochTrace_append h1.1 h2

lemma Layer_apply_snd (L : Layer) (x : List ℚ) : (Layer.apply L x).2 = L := by
  cases L <;> rfl

lemma seqForward_snd (Ls : List Layer) : ∀ x, (seqForward Ls x).2 = Ls := by
  induction Ls with
  | nil => intro x; rfl
  | cons L Ls ih => intro x; simp [seqForward, Layer_apply_snd, ih]

/-- Claim C1: for every epoch and every batch processed in it, the
training loop executes the five steps strictly in order — zero the
gradients, forward pass, loss evaluation, backward pass, optimizer
step — with the gradient zeroing before the backward pass of the same
iteration and the backward pass observing exactly the forward output of
that iteration; the whole trace of a successful run is a chain of such
five-event blocks with no reordering or pipelining across batches. -/
theorem c1_steps_strictly_ordered (model : Model I ε) (criterion : Criterion Lb ε)
    (optimizer : Optimizer) (trainloader : List (I × Lb)) (p g : List ℚ) (epochs : ℤ)
    (h : (train model criterion optimizer trainloader p g epochs).err = none) :
    EpochTrace model criterion optimizer p g
      (train model criterion optimizer trainloader p g epochs).trace
      (train model criterion optimizer trainloader p g epochs).params
      (train model criterion optimizer trainloader p g epochs).grads :=
  trainGo_trace model criterion optimizer trainloader epochs.toNat p g h

/-- Witness for C1 at a concrete engine, one epoch, one batch. -/
theorem c1_witness :
    EpochTrace wModel wCriterion wOptimizer [1] [0]
      (train wModel wCriterion wOptimizer [([2], [3])] [1] [0] 1).trace
      (train wModel wCriterion wOptimizer [([2], [3])] [1] [0] 1).params
      (train wModel wCriterion wOptimizer [([2], [3])] [1] [0] 1).grads :=
  c1_steps_strictly_ordered wModel wCriterion wOptimizer [([2], [3])] [1] [0] 1 (by decide)

/-- Claim C2: for every epoch that processes at least one batch and
completes, the epoch accumulator (reset to zero when the epoch starts)
equals the sum of the per-batch scalar losses, each batch contributes
exactly one loss value, and the reported value is the accumulator
divided by the number of batches traversed — their arithmetic mean. -/
theorem c2_epoch_mean_of_batches (model : Model I ε) (criterion : Criterion Lb ε)
    (optimizer : Optimizer) (trainloader : List (I × Lb)) (p g : List ℚ)
    (hb : trainloader ≠ [])
    (h : (runEpoch model criterion optimizer trainloader p g).err = none) :
    (runEpoch model criterion optimizer trainloader p g).running_loss =
        (lossVals (runEpoch model criterion optimizer trainloader p g).trace).sum ∧
      (lossVals (runEpoch model criterion optimizer trainloader p g).trace).length =
        trainloader.length ∧
      reportMean (runEpoch model criterion optimizer trainloader p g).running_loss
          trainloader.length =
        (Except.ok ((runEpoch model criterion optimizer trainloader p g).running_loss /
          (trainloader.length : ℚ)) : Except (TrainError ε) ℚ) := by
  obtain ⟨-, hrl, hlen⟩ := epochLoop_ok model criterion optimizer trainloader p g 0 h
  have hlen0 : trainloader.length ≠ 0 := by simpa using hb
  exact ⟨by simpa using hrl, hlen, by simp [reportMean, hlen0]⟩

/-- Witness for C2 at a concrete engine and a two-batch epoch. -/
theorem c2_witness :
    (runEpoch wModel wCriterion wOptimizer [([2], [3]), ([1], [1])] [1] [0]).running_loss =
        (lossVals (runEpoch wModel wCriterion wOptimizer
          [([2], [3]), ([1], [1])] [1] [0]).trace).sum ∧
      (lossVals (runEpoch wModel wCriterion wOptimizer
          [([2], [3]), ([1], [1])] [1] [0]).trace).length =
        ([(([2] : List ℚ), ([3] : List ℚ)), ([1], [1])]).length ∧
      reportMean (runEpoch wModel wCriterion wOptimizer
          [([2], [3]), ([1], [1])] [1] [0]).running_loss
          ([(([2] : List ℚ), ([3] : List ℚ)), ([1], [1])]).length =
        (Except.ok ((runEpoch wModel wCriterion wOptimizer
            [([2], [3]), ([1], [1])] [1] [0]).running_loss /
          ((([(([2] : List ℚ), ([3] : List ℚ)), ([1], [1])]).length : ℕ) : ℚ)) :
          Except (TrainError Unit) ℚ) :=
  c2_epoch_mean_of_batches wModel wCriterion wOptimizer [([2], [3]), ([1], [1])] [1] [0]
    (by decide) (by decide)

/-- Claim C3: for a positive epoch budget and a batch source yielding at
least one batch per traversal (and an engine that does not fail), train
completes without error and produces exactly `epochs` per-epoch mean
losses, in traversal order. -/
theorem c3_exactly_e_means (model : Model I ε) (criterion : Criterion Lb ε)
    (optimizer : Optimizer) (trainloader : List (I × Lb)) (p g : List ℚ) (epochs : ℤ)
    (hT : Total model criterion) (hb : trainloader ≠ []) (hE : 0 < epochs) :
    (train model criterion optimizer trainloader p g epochs).err = none ∧
      ((train model criterion optimizer trainloader p g epochs).means.length : ℤ) =
        epochs := by
  obtain ⟨h1, h2⟩ := trainGo_ok hT optimizer trainloader hb epochs.toNat p g
  refine ⟨h1, ?_⟩
  show ((trainGo model criterion optimizer trainloader epochs.toNat p g).means.length : ℤ) = _
  rw [h2]
  exact Int.toNat_of_nonneg hE.le

/-- Witness for C3: three epochs on a one-batch loader yield three
means. -/
theorem c3_witness :
    (train wModel wCriterion wOptimizer [([2], [3])] [1] [0] 3).err = none ∧
      ((train wModel wCriterion wOptimizer [([2], [3])] [1] [0] 3).means.length : ℤ) = 3 :=
  c3_exactly_e_means wModel wCriterion wOptimizer [([2], [3])] [1] [0] 3
    ⟨fun p x => ⟨zipAdd p x, rfl⟩, fun o y => ⟨(zipAdd o y).sum, rfl⟩,
      fun _ o y => ⟨zipAdd o y, rfl⟩⟩
    (by decide) (by decide)

/-- Claim C4: a non-positive epoch budget returns an empty result
sequence without error, leaves the parameters untouched and performs no
step (the trace is empty). -/
theorem c4_nonpositive_epochs (model : Model I ε) (criterion : Criterion Lb ε)
    (optimizer : Optimizer) (trainloader : List (I × Lb)) (p g : List ℚ) (epochs : ℤ)
    (hE : epochs ≤ 0) :
    train model criterion optimizer trainloader p g epochs = ⟨p, g, [], [], none⟩ := by
  have h0 : epochs.toNat = 0 := Int.toNat_of_nonpos hE
  simp [train, h0, trainGo]

/-- Witness for C4 at a negative epoch budget. -/
theorem c4_witness :
    train wModel wCriterion wOptimizer [([1], [1])] [5] [0] (-2) =
      ⟨[5], [0], [], [], none⟩ :=
  c4_nonpositive_epochs wModel wCriterion wOptimizer [([1], [1])] [5] [0] (-2) (by decide)

/-- Claim C5: with at least one batch in the traversal the mean-loss
division is well defined (it returns the exact quotient), while a
traversal of zero batches makes the mean undefined: the division by
zero surfaces as the fatal emptyEpoch error, a precondition violation
rather than a recoverable condition. -/
theorem c5_mean_defined_iff_nonempty {B : Type} (running_loss : ℚ) (trainloader : List B) :
    (trainloader ≠ [] →
      ∃ m, (reportMean running_loss trainloader.length : Except (TrainError ε) ℚ) =
          Except.ok m ∧ m * (trainloader.length : ℚ) = running_loss) ∧
    (trainloader = [] →
      (reportMean running_loss trainloader.length : Except (TrainError ε) ℚ) =
        Except.error TrainError.emptyEpoch) := by
  constructor
  · intro hb
    have hlen : trainloader.length ≠ 0 := by simpa using hb
    refine ⟨running_loss / (trainloader.length : ℚ), by simp [reportMean, hlen], ?_⟩
    have hq : (trainloader.length : ℚ) ≠ 0 := by exact_mod_cast hlen
    field_simp
  · intro hb
    subst hb
    simp [reportMean]

/-- Witness for C5 on a two-element loader. -/
theorem c5_witness :
    ∃ m, (reportMean (6 : ℚ) ([(), ()] : List Unit).length : Except (TrainError Unit) ℚ) =
        Except.ok m ∧ m * ((([(), ()] : List Unit).length : ℕ) : ℚ) = 6 :=
  (c5_mean_defined_iff_nonempty (6 : ℚ) ([(), ()] : List Unit)).1 (by decide)

/-- Claim C6: a failure raised inside the forward pass, the loss
evaluation or the backward pass is not recovered locally: it aborts the
current epoch immediately (the remaining batches are not processed) and
is surfaced to the caller of train as a fatal error tagged with the
stage that raised it. -/
theorem c6_stage_failures_fatal (model : Model I ε) (criterion : Criterion Lb ε)
    (optimizer : Optimizer) (p g : List ℚ) (x : I) (y : Lb) (bs : List (I × Lb))
    (acc : ℚ) :
    (∀ e, model.forward p x = Except.error e →
      epochLoop model criterion optimizer ((x, y) :: bs) p g acc =
        ⟨p, g, acc, [], some (TrainError.stage Stage.forward e)⟩) ∧
    (∀ o e, model.forward p x = Except.ok o → criterion.evaluate o y = Except.error e →
      epochLoop model criterion optimizer ((x, y) :: bs) p g acc =
        ⟨p, g, acc, [], some (TrainError.stage Stage.loss e)⟩) ∧
    (∀ o v e, model.forward p x = Except.ok o → criterion.evaluate o y = Except.ok v →
      criterion.backward p o y = Except.error e →
      epochLoop model criterion optimizer ((x, y) :: bs) p g acc =
        ⟨p, g, acc, [], some (TrainError.stage Stage.backward e)⟩) ∧
    (∀ (trainloader : List (I × Lb)) (epochs : ℤ) (err : TrainError ε), 0 < epochs →
      (runEpoch model criterion optimizer trainloader p g).err = some err →
      (train model criterion optimizer trainloader p g epochs).err = some err) := by
  refine ⟨?_, ?_, ?_, ?_⟩
  · intro e hf
    simp [epochLoop, processBatch, hf]
  · intro o e hf he
    simp [epochLoop, processBatch, hf, he]
  · intro o v e hf he hd
    simp [epochLoop, processBatch, hf, he, hd]
  · intro trainloader epochs err hE hr
    have h0 : epochs.toNat ≠ 0 := by omega
    obtain ⟨n, hn⟩ := Nat.exists_eq_succ_of_ne_zero h0
    simp [train, hn, trainGo, hr]

/-- Witness for C6: a forward failure on the first batch aborts the
epoch with the forward-stage tag. -/
theorem c6_witness :
    epochLoop wBadModel wCriterion wOptimizer [([1], [2])] [0] [0] 0 =
      ⟨[0], [0], 0, [], some (TrainError.stage Stage.forward ())⟩ :=
  (c6_stage_failures_fatal wBadModel wCriterion wOptimizer [0] [0] [1] [2] [] 0).1 () rfl

/-- Claim C7: when a stage of a batch iteration fails, train propagates
the first error encountered and returns the parameter (and gradient)
state exactly as of the last batch whose optimizer step completed, with
no partial update from the failing batch. -/
theorem c7_state_as_of_last_step (model : Model I ε) (criterion : Criterion Lb ε)
    (optimizer : Optimizer) (bs1 : List (I × Lb)) (bad : I × Lb) (bs2 : List (I × Lb))
    (p g p1 g1 : List ℚ) (acc1 : ℚ) (tr1 : List (Ev I Lb)) (epochs : ℤ)
    (err : TrainError ε)
    (hE : 0 < epochs)
    (hpre : runEpoch model criterion optimizer bs1 p g = ⟨p1, g1, acc1, tr1, none⟩)
    (hbad : processBatch model criterion optimizer p1 g1 bad = Except.error err) :
    train model criterion optimizer (bs1 ++ bad :: bs2) p g epochs =
      ⟨p1, g1, [], tr1, some err⟩ := by
  have hfull : runEpoch model criterion optimizer (bs1 ++ bad :: bs2) p g =
      ⟨p1, g1, acc1, tr1, some err⟩ := by
    have h2 := epochLoop_append model criterion optimizer bs1 (bad :: bs2) p g p1 g1
      0 acc1 tr1 hpre
    show epochLoop model criterion optimizer (bs1 ++ bad :: bs2) p g 0 = _
    rw [h2]
    simp [epochLoop, hbad]
  have h0 : epochs.toNat ≠ 0 := by omega
  obtain ⟨n, hn⟩ := Nat.exists_eq_succ_of_ne_zero h0
  simp [train, hn, trainGo, hfull]

/-- Witness for C7: one successful batch, then a forward failure; the
returned state is that of the completed first step. -/
theorem c7_witness :
    train wFlakyModel wCriterion wOptimizer ([([1], [1])] ++ ([9], [0]) :: []) [1] [0] 2 =
      ⟨[4], [3], [],
        [Ev.zeroGrad, Ev.forwardEv [1] [1] [2], Ev.lossEv [2] [1] 3,
          Ev.backwardEv [2] [1] [3], Ev.stepEv [4]],
        some (TrainError.stage Stage.forward ())⟩ :=
  c7_state_as_of_last_step wFlakyModel wCriterion wOptimizer [([1], [1])] ([9], [0]) []
    [1] [0] [4] [3] 3
    [Ev.zeroGrad, Ev.forwardEv [1] [1] [2], Ev.lossEv [2] [1] 3,
      Ev.backwardEv [2] [1] [3], Ev.stepEv [4]]
    2 (TrainError.stage Stage.forward ()) (by decide)
    (by norm_num [runEpoch, epochLoop, processBatch, wFlakyModel, wCriterion, wOptimizer,
      zipAdd])
    (by norm_num [processBatch, wFlakyModel])

/-- Claim C8: the parameter collection is rewritten only by the
optimizer step — a completed batch's new parameters are exactly
`optimizer.step` applied to the parameters the batch started from (so
forward, loss evaluation, backward and loss accumulation leave them
unchanged) — and the rest of the epoch, hence every subsequent forward
pass, proceeds from exactly the stepped parameters. -/
theorem c8_only_step_mutates (model : Model I ε) (criterion : Criterion Lb ε)
    (optimizer : Optimizer) (p g : List ℚ) (b : I × Lb) (bs : List (I × Lb))
    (running_loss : ℚ) (p1 g1 : List ℚ) (loss : ℚ) (ev : List (Ev I Lb))
    (h : processBatch model criterion optimizer p g b = Except.ok (p1, g1, loss, ev)) :
    p1 = optimizer.step p g1 ∧
    epochLoop model criterion optimizer (b :: bs) p g running_loss =
      ⟨(epochLoop model criterion optimizer bs p1 g1 (running_loss + loss)).params,
        (epochLoop model criterion optimizer bs p1 g1 (running_loss + loss)).grads,
        (epochLoop model criterion optimizer bs p1 g1 (running_loss + loss)).running_loss,
        ev ++ (epochLoop model criterion optimizer bs p1 g1 (running_loss + loss)).trace,
        (epochLoop model criterion optimizer bs p1 g1 (running_loss + loss)).err⟩ := by
  obtain ⟨o, dg, hf, he, hd, hg1, hp1, hev⟩ := processBatch_ok h
  exact ⟨hp1, by simp [epochLoop, h]⟩

/-- Witness for C8 on a concrete batch. -/
theorem c8_witness :
    ([7] : List ℚ) = wOptimizer.step [1] [6] ∧
    epochLoop wModel wCriterion wOptimizer [([2], [3])] [1] [0] 0 =
      ⟨(epochLoop wModel wCriterion wOptimizer [] [7] [6] (0 + 6)).params,
        (epochLoop wModel wCriterion wOptimizer [] [7] [6] (0 + 6)).grads,
        (epochLoop wModel wCriterion wOptimizer [] [7] [6] (0 + 6)).running_loss,
        [Ev.zeroGrad, Ev.forwardEv [1] [2] [3], Ev.lossEv [3] [3] 6,
          Ev.backwardEv [3] [3] [6], Ev.stepEv [7]] ++
          (epochLoop wModel wCriterion wOptimizer [] [7] [6] (0 + 6)).trace,
        (epochLoop wModel wCriterion wOptimizer [] [7] [6] (0 + 6)).err⟩ :=
  c8_only_step_mutates wModel wCriterion wOptimizer [1] [0] ([2], [3]) [] 0 [7] [6] 6
    [Ev.zeroGrad, Ev.forwardEv [1] [2] [3], Ev.lossEv [3] [3] 6,
      Ev.backwardEv [3] [3] [6], Ev.stepEv [7]]
    (by norm_num [processBatch, wModel, wCriterion, wOptimizer, zipAdd])

/-- Claim C9: running the notebook model's forward pass twice on the
same input with no update in between yields identical outputs, and the
first pass leaves the model state (every layer) unchanged — the forward
pass mutates no hidden state. -/
theorem c9_forward_pass_pure (W1 : List (List ℚ)) (b1 : List ℚ) (W2 : List (List ℚ))
    (b2 : List ℚ) (W3 : List (List ℚ)) (b3 : List ℚ) (fexp flog : ℚ → ℚ) (x : List ℚ) :
    (seqForward (seqForward (mnistModel W1 b1 W2 b2 W3 b3 fexp flog) x).2 x).1 =
        (seqForward (mnistModel W1 b1 W2 b2 W3 b3 fexp flog) x).1 ∧
      (seqForward (mnistModel W1 b1 W2 b2 W3 b3 fexp flog) x).2 =
        mnistModel W1 b1 W2 b2 W3 b3 fexp flog := by
  rw [seqForward_snd (mnistModel W1 b1 W2 b2 W3 b3 fexp flog) x]
  exact ⟨rfl, rfl⟩

/-- Claim C10: the loop introduces no nondeterminism — two runs of train
from the same initial parameters, the same engine (hence learning rate)
and the same replayed batch sequence produce the same per-epoch mean
losses and the same final parameters. -/
theorem c10_deterministic (model : Model I ε) (criterion : Criterion Lb ε)
    (optimizer : Optimizer) (trainloader : List (I × Lb)) (p g : List ℚ) (epochs : ℤ)
    (t1 t2 : TrainOut I Lb ε)
    (h1 : train model criterion optimizer trainloader p g epochs = t1)
    (h2 : train model criterion optimizer trainloader p g epochs = t2) :
    t1.means = t2.means ∧ t1.params = t2.params := by
  subst h1
  subst h2
  exact ⟨rfl, rfl⟩

/-- Witness for C10 on a concrete run. -/
theorem c10_witness :
    (train wModel wCriterion wOptimizer [([2], [3])] [1] [0] 2).means =
        (train wModel wCriterion wOptimizer [([2], [3])] [1] [0] 2).means ∧
      (train wModel wCriterion wOptimizer [([2], [3])] [1] [0] 2).params =
        (train wModel wCriterion wOptimizer [([2], [3])] [1] [0] 2).params :=
  c10_deterministic wModel wCriterion wOptimizer [([2], [3])] [1] [0] 2
    (train wModel wCriterion wOptimizer [([2], [3])] [1] [0] 2)
    (train wModel wCriterion wOptimizer [([2], [3])] [1] [0] 2) rfl rfl

end TrainingLoop
